import Mathlib

/-!
Verification development for the `into-md` fetch/cache/auto-detect core.

The definitions below are a shallow embedding, translated from the
TypeScript sources:
* `src/cache.ts` (versioned cache store: `buildCachePath`, `readFromCache`),
* the auto-detection module (`detectNeedForBrowser` and its helpers
  `isEmptyRootDiv`, `hasNoscriptAndEmptyBody`, `isContentTooSparse`),
* the fetch orchestrator (`tryGetFromCache`, `fetchWithAutoDetect`,
  `fetchWithMode`, `orchestrateFetch`).

External effects (the filesystem, the network, the headless browser, the
HTML parser and the readability extractor) are modelled as explicit
parameters/oracles; the SHA-256 hex digest is modelled as an abstract
function `hashHex : String → String` (collision-freeness of the digest is
expressed, where needed, as an injectivity hypothesis).
-/

namespace IntoMd

/-! ## Cache key construction (`buildCachePath` in `src/cache.ts`) -/

/-- Options that affect markdown output and are folded into the cache key
(`ExtractionOptions` in `src/cache.ts`).  `none` models an absent
(`undefined`) field. -/
structure ExtractionOptions where
  raw : Option Bool := none
  excludeSelectors : Option (List String) := none
  stripLinks : Option Bool := none
  encoding : Option String := none
deriving DecidableEq, Repr

/-- JavaScript `Array.prototype.sort()` on an array of strings: sorts in
lexicographic string order (modelled character-wise on the underlying
character lists). -/
def sortSelectors (l : List String) : List String :=
  l.insertionSort (fun a b => a.data ≤ b.data)

instance : IsTotal String (fun a b : String => a.data ≤ b.data) :=
  ⟨fun a b => le_total a.data b.data⟩

instance : IsTrans String (fun a b : String => a.data ≤ b.data) :=
  ⟨fun _ _ _ => le_trans⟩

instance : IsAntisymm String (fun a b : String => a.data ≤ b.data) :=
  ⟨fun _ _ h₁ h₂ => String.ext (le_antisymm h₁ h₂)⟩

/-- JavaScript `Array.prototype.join(sep)`. -/
def joinSep (sep : String) : List String → String
  | [] => ""
  | [p] => p
  | p :: ps => p ++ sep ++ joinSep sep ps

/-- The part contributed by `extraction.raw` (pushed when the flag is
truthy, i.e. `some true`). -/
def rawChunk (ext : ExtractionOptions) : List String :=
  if ext.raw = some true then ["raw=true"] else []

/-- The part contributed by `extraction.excludeSelectors` (pushed when
`excludeSelectors?.length` is truthy, i.e. the list is present and
non-empty): the selectors are copied, sorted, and comma-joined. -/
def exclChunk (ext : ExtractionOptions) : List String :=
  match ext.excludeSelectors with
  | some l => if l.isEmpty then [] else ["exclude=" ++ joinSep "," (sortSelectors l)]
  | none => []

/-- The part contributed by `extraction.stripLinks`. -/
def stripChunk (ext : ExtractionOptions) : List String :=
  if ext.stripLinks = some true then ["stripLinks=true"] else []

/-- The part contributed by `extraction.encoding` (pushed when the
encoding string is truthy, i.e. present and non-empty). -/
def encChunk (ext : ExtractionOptions) : List String :=
  match ext.encoding with
  | some e => if e.isEmpty then [] else ["encoding=" ++ e]
  | none => []

/-- The `parts` array accumulated by `buildCachePath`: one entry per
option that is truthy (in the JavaScript sense) in the extraction
options, in the fixed source order raw, exclude, stripLinks, encoding. -/
def cacheKeyParts (ext : ExtractionOptions) : List String :=
  rawChunk ext ++ exclChunk ext ++ stripChunk ext ++ encChunk ext

/-- The exact byte stream fed to the SHA-256 hasher by `buildCachePath`:
the URL, then — when the extraction options produced any parts —
a newline followed by the newline-joined parts. -/
def cacheKeyInput (url : String) (ext : Option ExtractionOptions) : String :=
  let parts := match ext with
    | some e => cacheKeyParts e
    | none => []
  url ++ (if parts.isEmpty then "" else "\n" ++ joinSep "\n" parts)

/-- `buildCachePath(url, cacheDir, extraction)`: joins the cache directory
with the hex digest of the key input plus a `.json` extension.  `hashHex`
models `createHash("sha256") … digest("hex")`. -/
def buildCachePath (hashHex : String → String) (url : String) (cacheDir : String)
    (ext : Option ExtractionOptions) : String :=
  cacheDir ++ "/" ++ hashHex (cacheKeyInput url ext) ++ ".json"

/-- The effective `raw` flag: the field is consulted by truthiness. -/
def effRaw (e : ExtractionOptions) : Bool := e.raw = some true

/-- The effective `stripLinks` flag. -/
def effStrip (e : ExtractionOptions) : Bool := e.stripLinks = some true

/-- The effective exclusion-selector list (`undefined` and `[]` both mean
"no selectors"). -/
def effSelectors (e : ExtractionOptions) : List String := e.excludeSelectors.getD []

/-- The effective encoding override (`undefined` and `""` both mean "no
override": the empty string is falsy in JavaScript). -/
def effEncoding (e : ExtractionOptions) : Option String :=
  match e.encoding with
  | some s => if s.isEmpty then none else some s
  | none => none

theorem sortSelectors_eq_of_perm {l₁ l₂ : List String} (h : l₁.Perm l₂) :
    sortSelectors l₁ = sortSelectors l₂ :=
  List.eq_of_perm_of_sorted
    ((List.perm_insertionSort _ l₁).trans (h.trans (List.perm_insertionSort _ l₂).symm))
    (List.sorted_insertionSort _ l₁) (List.sorted_insertionSort _ l₂)

theorem cacheKeyParts_eq_of_eff {e₁ e₂ : ExtractionOptions}
    (hraw : effRaw e₁ = effRaw e₂)
    (hsel : (effSelectors e₁).Perm (effSelectors e₂))
    (hstrip : effStrip e₁ = effStrip e₂)
    (henc : effEncoding e₁ = effEncoding e₂) :
    cacheKeyParts e₁ = cacheKeyParts e₂ := by
  have hr : rawChunk e₁ = rawChunk e₂ := by
    have h : (e₁.raw = some true) ↔ (e₂.raw = some true) := by
      simpa [effRaw] using hraw
    simp only [rawChunk, h]
  have hst : stripChunk e₁ = stripChunk e₂ := by
    have h : (e₁.stripLinks = some true) ↔ (e₂.stripLinks = some true) := by
      simpa [effStrip] using hstrip
    simp only [stripChunk, h]
  have hx : exclChunk e₁ = exclChunk e₂ := by
    unfold exclChunk
    rcases h₁ : e₁.excludeSelectors with _ | l₁ <;>
      rcases h₂ : e₂.excludeSelectors with _ | l₂ <;>
      simp only [effSelectors, h₁, h₂, Option.getD_some, Option.getD_none] at hsel
    · rfl
    · have h : l₂ = [] := hsel.symm.eq_nil
      simp [h]
    · have h : l₁ = [] := hsel.eq_nil
      simp [h]
    · by_cases h : l₁ = []
      · subst h
        have h2 : l₂ = [] := hsel.symm.eq_nil
        simp [h2]
      · have h2 : l₂ ≠ [] := by
          intro hn
          subst hn
          exact h hsel.eq_nil
        simp only [List.isEmpty_eq_true, h, h2, if_false, sortSelectors_eq_of_perm hsel]
  have he : encChunk e₁ = encChunk e₂ := by
    unfold encChunk
    rcases h₁ : e₁.encoding with _ | s₁ <;> rcases h₂ : e₂.encoding with _ | s₂ <;>
      simp only [effEncoding, h₁, h₂] at henc
    · rfl
    · by_cases hs : s₂.isEmpty
      · simp [hs]
      · simp [hs] at henc
    · by_cases hs : s₁.isEmpty
      · simp [hs]
      · simp [hs] at henc
    · by_cases hs₁ : s₁.isEmpty <;> by_cases hs₂ : s₂.isEmpty <;>
        simp_all
  unfold cacheKeyParts
  rw [hr, hst, hx, he]

/-! ### Injectivity of the key input on separator-free options -/

/-- Boolean "p is a prefix of s" at the character level (helper for
reading the parts back out of the key). -/
def strStarts (p s : String) : Bool := p.data.isPrefixOf s.data

theorem joinSep_data (sep : String) :
    ∀ l : List String, (joinSep sep l).data = sep.data.intercalate (l.map String.data)
  | [] => by simp [joinSep, List.intercalate]
  | [p] => by simp [joinSep, List.intercalate]
  | p :: q :: ps => by
    show (p ++ sep ++ joinSep sep (q :: ps)).data = _
    simp only [String.data_append, joinSep_data sep (q :: ps)]
    simp [List.intercalate, List.intersperse]

theorem mem_joinSep_data (sep : String) (c : Char) :
    ∀ l : List String, c ∈ (joinSep sep l).data → c ∈ sep.data ∨ ∃ s ∈ l, c ∈ s.data
  | [] => by simp [joinSep]
  | [p] => by
    intro h
    exact Or.inr ⟨p, by simp, by simpa [joinSep] using h⟩
  | p :: q :: ps => by
    intro h
    have h' : c ∈ (p ++ sep ++ joinSep sep (q :: ps)).data := h
    simp only [String.data_append, List.mem_append] at h'
    rcases h' with (hp | hsep) | hrest
    · exact Or.inr ⟨p, by simp, hp⟩
    · exact Or.inl hsep
    · rcases mem_joinSep_data sep c (q :: ps) hrest with hl | ⟨s, hs, hc⟩
      · exact Or.inl hl
      · exact Or.inr ⟨s, by simp [List.mem_cons] at hs ⊢; tauto, hc⟩

theorem joinSep_inj {c : Char} {l₁ l₂ : List String}
    (h₁ : ∀ s ∈ l₁, c ∉ s.data) (h₂ : ∀ s ∈ l₂, c ∉ s.data)
    (n₁ : l₁ ≠ []) (n₂ : l₂ ≠ [])
    (h : joinSep ⟨[c]⟩ l₁ = joinSep ⟨[c]⟩ l₂) : l₁ = l₂ := by
  have hd := congrArg String.data h
  rw [joinSep_data, joinSep_data] at hd
  have hs := congrArg (List.splitOn c) hd
  rw [List.splitOn_intercalate (l₁.map String.data) c
        (by simpa using fun s hsm hc => h₁ s hsm hc) (by simpa using n₁),
      List.splitOn_intercalate (l₂.map String.data) c
        (by simpa using fun s hsm hc => h₂ s hsm hc) (by simpa using n₂)] at hs
  exact List.map_injective_iff.2 (fun a b hab => String.ext hab) hs

theorem exclude_append_ne_raw (s : String) : "exclude=" ++ s ≠ "raw=true" := by
  intro h
  have h' := congrArg String.data h
  simp [String.data_append] at h'

theorem exclude_append_ne_strip (s : String) : "exclude=" ++ s ≠ "stripLinks=true" := by
  intro h
  have h' := congrArg String.data h
  simp [String.data_append] at h'

theorem encoding_append_ne_raw (s : String) : "encoding=" ++ s ≠ "raw=true" := by
  intro h
  have h' := congrArg String.data h
  simp [String.data_append] at h'

theorem encoding_append_ne_strip (s : String) : "encoding=" ++ s ≠ "stripLinks=true" := by
  intro h
  have h' := congrArg String.data h
  simp [String.data_append] at h'

theorem raw_ne_exclude_append (s : String) : "raw=true" ≠ "exclude=" ++ s :=
  fun h => exclude_append_ne_raw s h.symm

theorem strip_ne_exclude_append (s : String) : "stripLinks=true" ≠ "exclude=" ++ s :=
  fun h => exclude_append_ne_strip s h.symm

theorem raw_ne_encoding_append (s : String) : "raw=true" ≠ "encoding=" ++ s :=
  fun h => encoding_append_ne_raw s h.symm

theorem strip_ne_encoding_append (s : String) : "stripLinks=true" ≠ "encoding=" ++ s :=
  fun h => encoding_append_ne_strip s h.symm

theorem strStarts_exclude_self (s : String) :
    strStarts "exclude=" ("exclude=" ++ s) = true := by
  simp [strStarts, String.data_append, List.isPrefixOf_iff_prefix]

theorem strStarts_exclude_encoding (s : String) :
    strStarts "exclude=" ("encoding=" ++ s) = false := by
  simp [strStarts, String.data_append, List.isPrefixOf_cons₂]

theorem strStarts_encoding_self (s : String) :
    strStarts "encoding=" ("encoding=" ++ s) = true := by
  simp [strStarts, String.data_append, List.isPrefixOf_iff_prefix]

theorem strStarts_encoding_exclude (s : String) :
    strStarts "encoding=" ("exclude=" ++ s) = false := by
  simp [strStarts, String.data_append, List.isPrefixOf_cons₂]

theorem mem_raw_cacheKeyParts (e : ExtractionOptions) :
    ("raw=true" ∈ cacheKeyParts e) ↔ effRaw e = true := by
  unfold cacheKeyParts rawChunk exclChunk stripChunk encChunk effRaw
  rcases e.excludeSelectors with _ | l <;> rcases e.encoding with _ | s <;>
    by_cases hr : e.raw = some true <;> by_cases hst : e.stripLinks = some true <;>
    split_ifs <;>
    simp [hr, hst, exclude_append_ne_raw, encoding_append_ne_raw,
      raw_ne_exclude_append, raw_ne_encoding_append,
      (by decide : ("stripLinks=true" : String) ≠ "raw=true"),
      (by decide : ¬("raw=true" : String) = "stripLinks=true")]

theorem mem_strip_cacheKeyParts (e : ExtractionOptions) :
    ("stripLinks=true" ∈ cacheKeyParts e) ↔ effStrip e = true := by
  unfold cacheKeyParts rawChunk exclChunk stripChunk encChunk effStrip
  rcases e.excludeSelectors with _ | l <;> rcases e.encoding with _ | s <;>
    by_cases hr : e.raw = some true <;> by_cases hst : e.stripLinks = some true <;>
    split_ifs <;>
    simp [hr, hst, exclude_append_ne_strip, encoding_append_ne_strip,
      strip_ne_exclude_append, strip_ne_encoding_append,
      (by decide : ("raw=true" : String) ≠ "stripLinks=true"),
      (by decide : ¬("stripLinks=true" : String) = "raw=true")]

theorem find_excl_rawChunk (e : ExtractionOptions) :
    (rawChunk e).find? (strStarts "exclude=") = none := by
  unfold rawChunk
  split_ifs <;> simp [(by decide : strStarts "exclude=" "raw=true" = false)]

theorem find_excl_stripChunk (e : ExtractionOptions) :
    (stripChunk e).find? (strStarts "exclude=") = none := by
  unfold stripChunk
  split_ifs <;> simp [(by decide : strStarts "exclude=" "stripLinks=true" = false)]

theorem find_excl_encChunk (e : ExtractionOptions) :
    (encChunk e).find? (strStarts "exclude=") = none := by
  unfold encChunk
  rcases e.encoding with _ | s
  · rfl
  · dsimp only
    split_ifs <;> simp [strStarts_exclude_encoding]

theorem find_excl_exclChunk (e : ExtractionOptions) :
    (exclChunk e).find? (strStarts "exclude=")
      = if (effSelectors e).isEmpty then none
        else some ("exclude=" ++ joinSep "," (sortSelectors (effSelectors e))) := by
  unfold exclChunk effSelectors
  rcases e.excludeSelectors with _ | l
  · rfl
  · dsimp only
    split_ifs <;> simp_all [strStarts_exclude_self]

theorem find_enc_rawChunk (e : ExtractionOptions) :
    (rawChunk e).find? (strStarts "encoding=") = none := by
  unfold rawChunk
  split_ifs <;> simp [(by decide : strStarts "encoding=" "raw=true" = false)]

theorem find_enc_stripChunk (e : ExtractionOptions) :
    (stripChunk e).find? (strStarts "encoding=") = none := by
  unfold stripChunk
  split_ifs <;> simp [(by decide : strStarts "encoding=" "stripLinks=true" = false)]

theorem find_enc_exclChunk (e : ExtractionOptions) :
    (exclChunk e).find? (strStarts "encoding=") = none := by
  unfold exclChunk
  rcases e.excludeSelectors with _ | l
  · rfl
  · dsimp only
    split_ifs <;> simp [strStarts_encoding_exclude]

theorem find_enc_encChunk (e : ExtractionOptions) :
    (encChunk e).find? (strStarts "encoding=")
      = (effEncoding e).map (fun s => "encoding=" ++ s) := by
  unfold encChunk effEncoding
  rcases e.encoding with _ | s
  · rfl
  · dsimp only
    split_ifs <;> simp_all [strStarts_encoding_self]

theorem find_excl_cacheKeyParts (e : ExtractionOptions) :
    (cacheKeyParts e).find? (strStarts "exclude=")
      = if (effSelectors e).isEmpty then none
        else some ("exclude=" ++ joinSep "," (sortSelectors (effSelectors e))) := by
  simp [cacheKeyParts, List.find?_append, find_excl_rawChunk, find_excl_stripChunk,
    find_excl_encChunk, find_excl_exclChunk]

theorem find_enc_cacheKeyParts (e : ExtractionOptions) :
    (cacheKeyParts e).find? (strStarts "encoding=")
      = (effEncoding e).map (fun s => "encoding=" ++ s) := by
  simp [cacheKeyParts, List.find?_append, find_enc_rawChunk, find_enc_stripChunk,
    find_enc_exclChunk, find_enc_encChunk]

/-- Effective exclusion selectors that contain no separator character used
by the key serialization (no newline, no comma). -/
def SelectorsSepFree (e : ExtractionOptions) : Prop :=
  ∀ s ∈ effSelectors e, '\n' ∉ s.data ∧ ',' ∉ s.data

/-- Effective encoding override containing no newline. -/
def EncodingSepFree (e : ExtractionOptions) : Prop :=
  ∀ s, effEncoding e = some s → '\n' ∉ s.data

theorem strAppend_left_cancel {a b c : String} (h : a ++ b = a ++ c) : b = c := by
  have h' := congrArg String.data h
  simp only [String.data_append] at h'
  exact String.ext (List.append_cancel_left h')

theorem mem_sortSelectors {s : String} {l : List String} :
    s ∈ sortSelectors l ↔ s ∈ l :=
  (List.perm_insertionSort _ l).mem_iff

theorem sortSelectors_eq_nil {l : List String} (h : sortSelectors l = []) : l = [] := by
  have hp := List.perm_insertionSort (fun a b : String => a.data ≤ b.data) l
  rw [show List.insertionSort (fun a b : String => a.data ≤ b.data) l = sortSelectors l from rfl,
    h] at hp
  exact hp.symm.eq_nil

theorem cacheKeyParts_newline_free {e : ExtractionOptions}
    (hs : SelectorsSepFree e) (he : EncodingSepFree e) :
    ∀ p ∈ cacheKeyParts e, '\n' ∉ p.data := by
  intro p hp
  simp only [cacheKeyParts, List.mem_append] at hp
  rcases hp with ((hp | hp) | hp) | hp
  · have : p = "raw=true" := by
      unfold rawChunk at hp
      split_ifs at hp <;> simp_all
    subst this
    decide
  · unfold exclChunk at hp
    rcases hx : e.excludeSelectors with _ | l <;> rw [hx] at hp
    · simp at hp
    · dsimp only at hp
      split_ifs at hp with hl
      · simp at hp
      · simp only [List.mem_singleton] at hp
        subst hp
        intro hmem
        rw [String.data_append, List.mem_append] at hmem
        rcases hmem with hmem | hmem
        · exact absurd hmem (by decide)
        · rcases mem_joinSep_data "," '\n' _ hmem with hc | ⟨s, hsm, hc⟩
          · exact absurd hc (by decide)
          · exact (hs s (by simpa [effSelectors, hx] using mem_sortSelectors.1 hsm)).1 hc
  · have : p = "stripLinks=true" := by
      unfold stripChunk at hp
      split_ifs at hp <;> simp_all
    subst this
    decide
  · unfold encChunk at hp
    rcases hx : e.encoding with _ | s <;> rw [hx] at hp
    · simp at hp
    · dsimp only at hp
      split_ifs at hp with hse
      · simp at hp
      · simp only [List.mem_singleton] at hp
        subst hp
        intro hmem
        rw [String.data_append, List.mem_append] at hmem
        rcases hmem with hmem | hmem
        · exact absurd hmem (by decide)
        · exact he s (by simp [effEncoding, hx, hse]) hmem

theorem cacheKeyInput_inj {url : String} {e₁ e₂ : ExtractionOptions}
    (hs₁ : SelectorsSepFree e₁) (hs₂ : SelectorsSepFree e₂)
    (he₁ : EncodingSepFree e₁) (he₂ : EncodingSepFree e₂)
    (h : cacheKeyInput url (some e₁) = cacheKeyInput url (some e₂)) :
    cacheKeyParts e₁ = cacheKeyParts e₂ := by
  unfold cacheKeyInput at h
  have h' := strAppend_left_cancel h
  by_cases p₁ : (cacheKeyParts e₁).isEmpty <;> by_cases p₂ : (cacheKeyParts e₂).isEmpty
  · rw [List.isEmpty_iff.1 p₁, List.isEmpty_iff.1 p₂]
  · rw [if_pos p₁, if_neg p₂] at h'
    have := congrArg String.data h'
    simp [String.data_append] at this
  · rw [if_neg p₁, if_pos p₂] at h'
    have := congrArg String.data h'
    simp [String.data_append] at this
  · rw [if_neg p₁, if_neg p₂] at h'
    have hj := strAppend_left_cancel h'
    have hnl : ("\n" : String) = ⟨['\n']⟩ := rfl
    rw [hnl] at hj
    exact joinSep_inj (cacheKeyParts_newline_free hs₁ he₁) (cacheKeyParts_newline_free hs₂ he₂)
      (by simpa [List.isEmpty_iff] using p₁) (by simpa [List.isEmpty_iff] using p₂) hj

theorem eff_eq_of_cacheKeyParts_eq {e₁ e₂ : ExtractionOptions}
    (hs₁ : SelectorsSepFree e₁) (hs₂ : SelectorsSepFree e₂)
    (h : cacheKeyParts e₁ = cacheKeyParts e₂) :
    effRaw e₁ = effRaw e₂ ∧ (effSelectors e₁).Perm (effSelectors e₂)
      ∧ effStrip e₁ = effStrip e₂ ∧ effEncoding e₁ = effEncoding e₂ := by
  refine ⟨?_, ?_, ?_, ?_⟩
  · have h₁ := mem_raw_cacheKeyParts e₁
    have h₂ := mem_raw_cacheKeyParts e₂
    rw [h] at h₁
    rw [h₂] at h₁
    cases hb₁ : effRaw e₁ <;> cases hb₂ : effRaw e₂ <;> simp_all
  · have h₁ := find_excl_cacheKeyParts e₁
    have h₂ := find_excl_cacheKeyParts e₂
    rw [h, h₂] at h₁
    by_cases q₁ : (effSelectors e₁).isEmpty <;> by_cases q₂ : (effSelectors e₂).isEmpty
    · rw [List.isEmpty_iff.1 q₁, List.isEmpty_iff.1 q₂]
    · rw [if_neg q₂, if_pos q₁] at h₁
      simp at h₁
    · rw [if_pos q₂, if_neg q₁] at h₁
      simp at h₁
    · rw [if_neg q₂, if_neg q₁] at h₁
      have hj := strAppend_left_cancel (Option.some_injective _ h₁.symm)
      have hcm : ("," : String) = ⟨[',']⟩ := rfl
      rw [hcm] at hj
      have hsort : sortSelectors (effSelectors e₁) = sortSelectors (effSelectors e₂) :=
        joinSep_inj
          (fun s hsm => (hs₁ s (mem_sortSelectors.1 hsm)).2)
          (fun s hsm => (hs₂ s (mem_sortSelectors.1 hsm)).2)
          (fun hn => q₁ (by simp [List.isEmpty_iff, sortSelectors_eq_nil hn]))
          (fun hn => q₂ (by simp [List.isEmpty_iff, sortSelectors_eq_nil hn]))
          hj
      have hperm : (sortSelectors (effSelectors e₁)).Perm (effSelectors e₂) := by
        rw [hsort]
        exact List.perm_insertionSort _ _
      exact (List.perm_insertionSort (fun a b : String => a.data ≤ b.data)
        (effSelectors e₁)).symm.trans hperm
  · have h₁ := mem_strip_cacheKeyParts e₁
    have h₂ := mem_strip_cacheKeyParts e₂
    rw [h] at h₁
    rw [h₂] at h₁
    cases hb₁ : effStrip e₁ <;> cases hb₂ : effStrip e₂ <;> simp_all
  · have h₁ := find_enc_cacheKeyParts e₁
    have h₂ := find_enc_cacheKeyParts e₂
    rw [h, h₂] at h₁
    exact Option.map_injective (fun a b hab => strAppend_left_cancel hab) h₁.symm

theorem strAppend_right_cancel {a b c : String} (h : a ++ c = b ++ c) : a = b := by
  have h' := congrArg String.data h
  simp only [String.data_append] at h'
  exact String.ext (List.append_cancel_right h')

/-- C1 (amended): for every digest function, URL and cache directory,
`buildCachePath` returns the identical path for extraction-option sets
that agree in the effective raw flag, stripLinks flag, encoding override,
and exclusion-selector **multiset** (any enumeration order; duplicate
entries are significant because the source sorts but does not
deduplicate); and — for selectors and encodings free of the serializer's
separator characters (newline anywhere, comma in selectors) and an
injective digest — option sets that agree on none of this, i.e. that
differ in any effective component, produce different paths (stated
contrapositively: equal paths force equal effective components).  Options
outside `ExtractionOptions` (timeout, verbosity, …) are not parameters of
the computation at all. -/
theorem C1_buildCachePath_key (hashHex : String → String) (url cacheDir : String)
    (e₁ e₂ : ExtractionOptions) :
    (effRaw e₁ = effRaw e₂ → (effSelectors e₁).Perm (effSelectors e₂) →
      effStrip e₁ = effStrip e₂ → effEncoding e₁ = effEncoding e₂ →
      buildCachePath hashHex url cacheDir (some e₁)
        = buildCachePath hashHex url cacheDir (some e₂))
    ∧ (Function.Injective hashHex →
        SelectorsSepFree e₁ → SelectorsSepFree e₂ →
        EncodingSepFree e₁ → EncodingSepFree e₂ →
        buildCachePath hashHex url cacheDir (some e₁)
          = buildCachePath hashHex url cacheDir (some e₂) →
        effRaw e₁ = effRaw e₂ ∧ (effSelectors e₁).Perm (effSelectors e₂)
          ∧ effStrip e₁ = effStrip e₂ ∧ effEncoding e₁ = effEncoding e₂) := by
  constructor
  · intro h1 h2 h3 h4
    unfold buildCachePath cacheKeyInput
    dsimp only
    rw [cacheKeyParts_eq_of_eff h1 h2 h3 h4]
  · intro hinj hs₁ hs₂ he₁ he₂ hpath
    unfold buildCachePath at hpath
    have hkey := hinj (strAppend_left_cancel (strAppend_right_cancel hpath))
    exact eff_eq_of_cacheKeyParts_eq hs₁ hs₂ (cacheKeyInput_inj hs₁ hs₂ he₁ he₂ hkey)

/-- Witness for `C1_buildCachePath_key` at concrete inputs: permuted
selector lists give the identical path, and via the reverse direction
with the identity digest, equal paths give equal effective options. -/
theorem C1_buildCachePath_key_witness :
    (buildCachePath id "https://example.com" "/cache"
        (some ⟨some true, some ["nav", "footer"], none, some "utf-8"⟩)
      = buildCachePath id "https://example.com" "/cache"
        (some ⟨some true, some ["footer", "nav"], none, some "utf-8"⟩))
    ∧ (effSelectors ⟨none, some ["b", "a"], none, none⟩).Perm
        (effSelectors ⟨none, some ["a", "b"], none, none⟩) :=
  ⟨(C1_buildCachePath_key id "https://example.com" "/cache"
      ⟨some true, some ["nav", "footer"], none, some "utf-8"⟩
      ⟨some true, some ["footer", "nav"], none, some "utf-8"⟩).1
      (by decide) (by decide) (by decide) (by decide),
    ((C1_buildCachePath_key id "u" "/c"
      ⟨none, some ["b", "a"], none, none⟩
      ⟨none, some ["a", "b"], none, none⟩).2
      (fun _ _ h => h)
      (by intro s hs; simp [effSelectors] at hs; rcases hs with h | h <;> subst h <;>
        exact ⟨by decide, by decide⟩)
      (by intro s hs; simp [effSelectors] at hs; rcases hs with h | h <;> subst h <;>
        exact ⟨by decide, by decide⟩)
      (by intro s hs; simp [effEncoding] at hs)
      (by intro s hs; simp [effEncoding] at hs)
      (by decide)).2.1⟩

/-- Counterexample to C1 as stated: `["nav"]` and `["nav","nav"]` are
equal as sets (mutual subsets) yet produce different cache paths (the
source sorts without deduplicating); and `["a,b"]` and `["a","b"]`
differ as sets yet produce the identical path (the comma-join is
ambiguous), so set-equality neither suffices for nor is forced by path
equality. -/
theorem C1_claim_counterexample :
    ((["nav"] : List String) ⊆ ["nav", "nav"]
      ∧ (["nav", "nav"] : List String) ⊆ ["nav"]
      ∧ buildCachePath id "u" "/c" (some ⟨none, some ["nav"], none, none⟩)
          ≠ buildCachePath id "u" "/c" (some ⟨none, some ["nav", "nav"], none, none⟩))
    ∧ ((("a,b" : String) ∉ (["a", "b"] : List String))
      ∧ buildCachePath id "u" "/c" (some ⟨none, some ["a,b"], none, none⟩)
          = buildCachePath id "u" "/c" (some ⟨none, some ["a", "b"], none, none⟩)) := by
  decide

/-! ## Versioned cache reads (`readFromCache` in `src/cache.ts`, schema v2) -/

/-- `Partial<CacheOptions>`: the options bag accepted by the cache store;
every field may be absent. -/
structure CacheOptionsPartial where
  enabled : Option Bool := none
  ttlMs : Option Int := none
  cacheDir : Option String := none
deriving DecidableEq, Repr

/-- A payload as delivered by `JSON.parse` and field access on the
resulting object: every field is optional (`none` models an absent
field). `cacheVersion` is `none` when the tag is absent or is not a
number (a non-numeric tag can never be strictly equal to `2`). -/
structure CachedPayload where
  url : Option String := none
  finalUrl : Option String := none
  fetchedAt : Option Int := none
  markdown : Option String := none
  cacheVersion : Option Int := none
deriving DecidableEq, Repr

/-- A cache file on disk: `parsed = none` models text on which
`JSON.parse` throws; `mtimeMs` is the stat mtime. -/
structure CacheFile where
  parsed : Option CachedPayload
  mtimeMs : Int
deriving DecidableEq, Repr

def DEFAULT_TTL_MS : Int := 60 * 60 * 1000

/-- `readFromCache(url, options, extraction)` over an explicit filesystem
`fs : path → file` and clock `now` (`Date.now()`).  The `try/catch`
around `readFile`/`stat`/`JSON.parse` is modelled by the `none` cases:
a missing file or a parse failure flows to `none`, never to an error —
the Lean embedding is a total function, mirroring that the source never
throws. -/
def readFromCache (hashHex : String → String) (fs : String → Option CacheFile)
    (now : Int) (defaultCacheDir : String) (url : String)
    (options : Option CacheOptionsPartial) (extraction : Option ExtractionOptions) :
    Option CachedPayload :=
  let opts := options.getD {}
  let enabled := opts.enabled.getD true
  let ttlMs := opts.ttlMs.getD DEFAULT_TTL_MS
  let cacheDir := opts.cacheDir.getD defaultCacheDir
  if !enabled then none
  else
    let target := buildCachePath hashHex url cacheDir extraction
    match fs target with
    | none => none
    | some file =>
      match file.parsed with
      | none => none
      | some payload =>
        if payload.cacheVersion ≠ some 2 then none
        else
          let isFresh := file.mtimeMs + ttlMs > now
          if !isFresh then none
          else if payload.url ≠ some url then none
          else some payload

/-- C2: `readFromCache` is a total function (it never throws — every
failure path yields `none`), and it returns a payload exactly when the
cache is enabled, the file at the computed path exists and parses, the
payload's schema-version tag strictly equals the recognized version 2,
the file's mtime plus the effective TTL is still in the future, and the
stored url equals the requested url; in particular a payload whose
version tag is absent or mismatched is never returned, regardless of
freshness. -/
theorem C2_readFromCache_guards (hashHex : String → String)
    (fs : String → Option CacheFile) (now : Int) (defaultCacheDir url : String)
    (options : Option CacheOptionsPartial) (extraction : Option ExtractionOptions)
    (p : CachedPayload) :
    readFromCache hashHex fs now defaultCacheDir url options extraction = some p
      ↔ ((options.getD {}).enabled.getD true = true
          ∧ ∃ f, fs (buildCachePath hashHex url
                ((options.getD {}).cacheDir.getD defaultCacheDir) extraction) = some f
            ∧ f.parsed = some p
            ∧ p.cacheVersion = some 2
            ∧ f.mtimeMs + (options.getD {}).ttlMs.getD DEFAULT_TTL_MS > now
            ∧ p.url = some url) := by
  unfold readFromCache
  dsimp only
  by_cases hen : (options.getD {}).enabled.getD true = true
  · rw [if_neg (by simp [hen])]
    rcases hfs : fs (buildCachePath hashHex url
        ((options.getD {}).cacheDir.getD defaultCacheDir) extraction) with _ | f
    · simp [hen]
    · dsimp only
      rcases hp : f.parsed with _ | payload
      · simp [hen, hp]
      · dsimp only
        by_cases hv : payload.cacheVersion = some 2
        · rw [if_neg (by simpa using hv)]
          by_cases hfresh : f.mtimeMs + (options.getD {}).ttlMs.getD DEFAULT_TTL_MS > now
          · rw [if_neg (by simpa using hfresh)]
            by_cases hurl : payload.url = some url
            · rw [if_neg (by simpa using hurl)]
              constructor
              · intro h
                obtain rfl : payload = p := by simpa using h
                exact ⟨hen, f, rfl, hp, hv, hfresh, hurl⟩
              · rintro ⟨-, f', hf', hp', -, -, -⟩
                obtain rfl : f = f' := by simp_all
                simp_all
            · rw [if_pos (by simpa using hurl)]
              constructor
              · intro h
                simp at h
              · rintro ⟨-, f', hf', hp', -, -, hurl'⟩
                obtain rfl : f = f' := by simp_all
                exact absurd (by simp_all) hurl
          · rw [if_pos (by simpa using hfresh)]
            constructor
            · intro h
              simp at h
            · rintro ⟨-, f', hf', hp', -, hfresh', -⟩
              obtain rfl : f = f' := by simp_all
              exact absurd (by simp_all) hfresh
        · rw [if_pos (by simpa using hv)]
          constructor
          · intro h
            simp at h
          · rintro ⟨-, f', hf', hp', hv', -, -⟩
            obtain rfl : f = f' := by simp_all
            exact absurd (by simp_all) hv
  · rw [if_pos (by simpa using hen)]
    simp [hen]

/-! ## DOM model and the two-stage heuristic detector (`auto-detect.ts`)

The detector inspects documents through JSDOM.  The parsed document is
modelled as a tree: element nodes carry their (parser-normalized,
lowercase) tag name, their attribute list, and their children; text nodes
carry their character data.  Parsing a markup string into this tree is the
external parser's job; the detector functions below are translated from
the source against this tree. -/

inductive Dom where
  | text (s : String)
  | elem (tag : String) (attrs : List (String × String)) (children : List Dom)

def STAGE_1_BODY_TEXT_MIN : Nat := 100
def STAGE_2_CONTENT_MIN : Nat := 200

def STAGE_2_STRUCTURAL_TAGS : List String :=
  ["article", "p", "pre", "li", "h1", "h2", "h3", "h4", "h5", "h6"]

def SPA_ROOT_IDS : List String := ["root", "app", "__next", "__nuxt", "__svelte"]

def LOADING_INDICATORS : List String := ["loading", "loading..."]

/-- The JavaScript whitespace class `\s` (used by `trim()` and the
`/\s+/g` regex). -/
def jsWhitespace (c : Char) : Bool :=
  c = ' ' || c = '\t' || c = '\n' || c = '\r' || c.val = 11 || c.val = 12
    || c.val = 0xa0 || c.val = 0x1680 || (0x2000 ≤ c.val && c.val ≤ 0x200a)
    || c.val = 0x2028 || c.val = 0x2029 || c.val = 0x202f || c.val = 0x205f
    || c.val = 0x3000 || c.val = 0xfeff

/-- JavaScript `String.prototype.trim()`. -/
def jsTrim (s : String) : String :=
  ⟨((s.data.dropWhile jsWhitespace).reverse.dropWhile jsWhitespace).reverse⟩

/-- `replace(/\s+/g, " ")`: each maximal whitespace run becomes a single
space (the flag records whether the previous character was part of a
run). -/
def collapseWsAux : Bool → List Char → List Char
  | _, [] => []
  | inRun, c :: cs =>
    if jsWhitespace c then
      if inRun then collapseWsAux true cs else ' ' :: collapseWsAux true cs
    else c :: collapseWsAux false cs

def collapseWs (s : String) : String := ⟨collapseWsAux false s.data⟩

/-- JavaScript `String.prototype.length`: the number of UTF-16 code
units. -/
def utf16Length (s : String) : Nat :=
  (s.data.map (fun c => if c.val ≥ 0x10000 then 2 else 1)).sum

/-- JavaScript `String.prototype.includes` (substring containment). -/
def strContains (s pat : String) : Bool := decide (pat.data <:+: s.data)

/-- `String.prototype.toLowerCase()` (ASCII case mapping). -/
def strToLower (s : String) : String := ⟨s.data.map Char.toLower⟩

/-- DOM attribute access: the value of the first attribute with the given
name. -/
def getAttr (attrs : List (String × String)) (name : String) : Option String :=
  (attrs.find? (fun p => p.1 == name)).map (·.2)

mutual

/-- `Node.textContent`: the concatenated data of all descendant text
nodes, in document order. -/
def nodeText : Dom → String
  | .text s => s
  | .elem _ _ cs => listText cs

def listText : List Dom → String
  | [] => ""
  | d :: ds => nodeText d ++ listText ds

end

mutual

/-- The clone with every `script`/`style` descendant removed
(`clone.querySelectorAll("script, style") … remove()`). -/
def stripSS : Dom → Dom
  | .text s => .text s
  | .elem t a cs => .elem t a (stripSSList cs)

def stripSSList : List Dom → List Dom
  | [] => []
  | d :: ds => stripSSKeep d ++ stripSSList ds

/-- A single node after script/style removal: a removed element
disappears, any other node is kept with its subtree stripped. -/
def stripSSKeep : Dom → List Dom
  | .text s => [.text s]
  | .elem t a cs =>
    if t == "script" || t == "style" then []
    else [.elem t a (stripSSList cs)]

end

mutual

/-- `document.getElementById`: the first element in document (preorder)
order whose `id` attribute equals `rid`. -/
def findByIdNode (rid : String) : Dom → Option Dom
  | .text _ => none
  | .elem t a cs =>
    if getAttr a "id" == some rid then some (.elem t a cs) else findByIdList rid cs

def findByIdList (rid : String) : List Dom → Option Dom
  | [] => none
  | d :: ds =>
    match findByIdNode rid d with
    | some e => some e
    | none => findByIdList rid ds

end

mutual

/-- `document.querySelector(tag)`: the first element in document order
with the given tag name. -/
def findTagNode (tag : String) : Dom → Option Dom
  | .text _ => none
  | .elem t a cs => if t == tag then some (.elem t a cs) else findTagList tag cs

def findTagList (tag : String) : List Dom → Option Dom
  | [] => none
  | d :: ds =>
    match findTagNode tag d with
    | some e => some e
    | none => findTagList tag ds

end

/-- A `<noscript>` occurrence: its `textContent` and the attribute lists
of all its ancestor elements (nearest first), for the
`parentElement`-chain walk. -/
structure NoscriptInfo where
  textContent : String
  ancestors : List (List (String × String))
deriving DecidableEq, Repr

mutual

/-- `document.querySelectorAll("noscript")` in document order, each
paired with its ancestor chain. -/
def noscriptsNode (anc : List (List (String × String))) : Dom → List NoscriptInfo
  | .text _ => []
  | .elem t a cs =>
    (if t == "noscript" then [⟨listText cs, anc⟩] else []) ++ noscriptsList (a :: anc) cs

def noscriptsList (anc : List (List (String × String))) : List Dom → List NoscriptInfo
  | [] => []
  | d :: ds => noscriptsNode anc d ++ noscriptsList anc ds

end

def docNoscripts (doc : Dom) : List NoscriptInfo := noscriptsNode [] doc

/-- One ancestor's `className`/`id` check from `isCookieBannerWrapper`. -/
def attrsMarkCookieBanner (attrs : List (String × String)) : Bool :=
  let className := strToLower ((getAttr attrs "class").getD "")
  let idAttr := strToLower ((getAttr attrs "id").getD "")
  strContains className "cookie" || strContains className "consent"
    || strContains className "banner" || strContains idAttr "cookie"
    || strContains idAttr "consent" || strContains idAttr "banner"

/-- `isCookieBannerWrapper`: walks all ancestors (`parentElement` chain),
not just the immediate parent. -/
def isCookieBannerWrapper (ancestors : List (List (String × String))) : Bool :=
  ancestors.any attrsMarkCookieBanner

/-- `getBodyTextCount`: body text with script/style stripped, whitespace
collapsed (`replace(/\s+/g, " ")`), trimmed, measured in code units; `0`
when there is no body. -/
def getBodyTextCount (doc : Dom) : Nat :=
  match findTagNode "body" doc with
  | none => 0
  | some body => utf16Length (jsTrim (collapseWs (nodeText (stripSS body))))

/-- `isLoadingIndicator`: exact case-insensitive match against the
loading-phrase blocklist. -/
def isLoadingIndicator (text : String) : Bool :=
  LOADING_INDICATORS.contains (strToLower (jsTrim text))

/-- `hasMeaningfulChildren`: some element child (skipping script/style)
carries trimmed text that is non-empty and not a loading indicator. -/
def hasMeaningfulChildren : Dom → Bool
  | .text _ => false
  | .elem _ _ cs =>
    cs.any fun child =>
      match child with
      | .text _ => false
      | .elem t _ _ =>
        if t == "script" || t == "style" then false
        else
          let childText := jsTrim (nodeText child)
          decide (0 < utf16Length childText) && !isLoadingIndicator childText

/-- The per-element body of the `isEmptyRootDiv` loop: the element,
stripped of script/style, has no meaningful children and own text that is
empty or a loading indicator. -/
def emptyRootCandidate (rootEl : Dom) : Bool :=
  let clone := stripSS rootEl
  if hasMeaningfulChildren clone then false
  else
    let textContent := jsTrim (nodeText clone)
    decide (utf16Length textContent = 0) || isLoadingIndicator textContent

/-- `isEmptyRootDiv`: for each SPA mount-point id, the element it
designates (if any) is tested; a failed test falls through to the next
id. -/
def isEmptyRootDiv (doc : Dom) : Bool :=
  SPA_ROOT_IDS.any fun rootId =>
    match findByIdNode rootId doc with
    | none => false
    | some rootEl => emptyRootCandidate rootEl

/-- A noscript qualifies when its text mentions "javascript"
(case-insensitively) and it is not nested in a cookie/consent/banner
container. -/
def nsQualifies (info : NoscriptInfo) : Bool :=
  strContains (strToLower info.textContent) "javascript"
    && !isCookieBannerWrapper info.ancestors

/-- `hasNoscriptAndEmptyBody`: each noscript is checked independently; if
any qualifies, the verdict is whether the body text is under the Stage-1
minimum. -/
def hasNoscriptAndEmptyBody (doc : Dom) : Bool :=
  let noscripts := docNoscripts doc
  if noscripts.isEmpty then false
  else if noscripts.any nsQualifies then
    decide (getBodyTextCount doc < STAGE_1_BODY_TEXT_MIN)
  else false

/-- `document.body?.textContent?.trim() ?? ""` on the extracted
fragment. -/
def extractedBodyText (doc : Dom) : String :=
  match findTagNode "body" doc with
  | none => ""
  | some body => jsTrim (nodeText body)

/-- `isContentTooSparse`: body text below the Stage-2 minimum and none of
the structural tags anywhere in the fragment. -/
def isContentTooSparse (doc : Dom) : Bool :=
  let textContent := extractedBodyText doc
  if STAGE_2_CONTENT_MIN ≤ utf16Length textContent then false
  else !(STAGE_2_STRUCTURAL_TAGS.any fun tag => (findTagNode tag doc).isSome)

inductive DetectionStage where
  | stage1
  | stage2
  | both
deriving DecidableEq, Repr

structure DetectionResult where
  shouldFallback : Bool
  reason : Option String := none
deriving DecidableEq, Repr

/-- The options bag of `detectNeedForBrowser`; absent fields are `none`
(`raw` is consulted by truthiness, `stage` defaults to `both`). -/
structure DetectOptions where
  verbose : Option Bool := none
  raw : Option Bool := none
  stage : Option DetectionStage := none
deriving DecidableEq, Repr

/-- `detectNeedForBrowser(rawHtml, extractedHtml?, options)`: Stage 1
(empty SPA root, then noscript+sparse body) unless the caller asked for
Stage 2 only; Stage 2 (post-extraction sparsity) unless the caller asked
for Stage 1 only or requested raw processing; a missing extracted
fragment (`undefined` or `null`, both `none` here) skips Stage 2. -/
def detectNeedForBrowser (rawDoc : Dom) (extracted : Option Dom)
    (options : DetectOptions) : DetectionResult :=
  let stage := options.stage.getD .both
  if stage ≠ DetectionStage.stage2 ∧ isEmptyRootDiv rawDoc then
    ⟨true, some "Empty SPA root div detected"⟩
  else if stage ≠ DetectionStage.stage2 ∧ hasNoscriptAndEmptyBody rawDoc then
    ⟨true, some "Noscript with javascript and sparse body"⟩
  else if stage ≠ DetectionStage.stage1 ∧ options.raw ≠ some true then
    match extracted with
    | some ex =>
      if isContentTooSparse ex then ⟨true, some "Extracted content is too sparse"⟩
      else ⟨false, none⟩
    | none => ⟨false, none⟩
  else ⟨false, none⟩

/-! ## Detector claims -/

/-- Subtree occurrence: `OccursIn x d` holds when `x` is a node of the
tree rooted at `d`. -/
inductive OccursIn : Dom → Dom → Prop where
  | refl (d : Dom) : OccursIn d d
  | child {x c : Dom} (tag : String) (attrs : List (String × String))
      (cs : List Dom) (hc : c ∈ cs) (h : OccursIn x c) : OccursIn x (.elem tag attrs cs)

/-- `<div id="root"></div>` alone in the body, as parsed. -/
def docC7empty : Dom :=
  .elem "html" [] [.elem "head" [] [],
    .elem "body" [] [.elem "div" [("id", "root")] []]]

/-- `<div id="root"><p>Content here</p></div>` alone in the body. -/
def docC7content : Dom :=
  .elem "html" [] [.elem "head" [] [],
    .elem "body" [] [.elem "div" [("id", "root")] [.elem "p" [] [.text "Content here"]]]]

/-- Two elements share the id `root`: the first has content, the second
is empty. -/
def docC7dup : Dom :=
  .elem "html" [] [.elem "head" [] [],
    .elem "body" [] [.elem "div" [("id", "root")] [.elem "p" [] [.text "Content here"]],
      .elem "div" [("id", "root")] []]]

/-- C7 (amended): whenever the element that one of the fixed SPA
mount-point identifiers designates (the first in document order, as
`getElementById` resolves duplicate ids) has — after removing
script/style descendants — no child element bearing non-trivial text of
its own and own text that is empty or exactly a loading-indicator
phrase, Stage 1 returns `shouldFallback = true` with the empty-SPA-root
reason; `<div id="root"></div>` alone in the body triggers it, while the
same markup with `<p>Content here</p>` inside the root does not. -/
theorem C7_emptyRoot_stage1 :
    (∀ (doc : Dom) (rid : String) (el : Dom) (extracted : Option Dom) (v raw : Option Bool),
      rid ∈ SPA_ROOT_IDS →
      findByIdNode rid doc = some el →
      hasMeaningfulChildren (stripSS el) = false →
      (utf16Length (jsTrim (nodeText (stripSS el))) = 0
        ∨ isLoadingIndicator (jsTrim (nodeText (stripSS el))) = true) →
      detectNeedForBrowser doc extracted ⟨v, raw, some .stage1⟩
        = ⟨true, some "Empty SPA root div detected"⟩)
    ∧ detectNeedForBrowser docC7empty none ⟨none, none, some .stage1⟩
        = ⟨true, some "Empty SPA root div detected"⟩
    ∧ detectNeedForBrowser docC7content none ⟨none, none, some .stage1⟩ = ⟨false, none⟩ := by
  refine ⟨?_, by decide, by decide⟩
  intro doc rid el extracted v raw hmem hfind hmc hcond
  have hcand : emptyRootCandidate el = true := by
    simp only [emptyRootCandidate]
    rw [if_neg (by simp [hmc])]
    rcases hcond with h | h <;> simp [h]
  have hroot : isEmptyRootDiv doc = true := by
    unfold isEmptyRootDiv
    rw [List.any_eq_true]
    refine ⟨rid, hmem, ?_⟩
    simp only [hfind]
    exact hcand
  simp [detectNeedForBrowser, hroot]

/-- C7 counterexample (claim as stated): the document `docC7dup`
*contains* an element bearing a SPA mount-point id that is empty after
stripping — the second `div#root` — yet Stage 1 reports no fallback,
because `getElementById` only ever consults the first element with the
id. -/
theorem C7_claim_counterexample :
    (("root" : String) ∈ SPA_ROOT_IDS
      ∧ OccursIn (.elem "div" [("id", "root")] []) docC7dup
      ∧ getAttr [("id", "root")] "id" = some "root"
      ∧ hasMeaningfulChildren (stripSS (.elem "div" [("id", "root")] [])) = false
      ∧ utf16Length (jsTrim (nodeText (stripSS (.elem "div" [("id", "root")] [])))) = 0)
    ∧ detectNeedForBrowser docC7dup none ⟨none, none, some .stage1⟩ = ⟨false, none⟩ := by
  have h1 : OccursIn (.elem "div" [("id", "root")] [])
      (.elem "body" []
        [.elem "div" [("id", "root")] [.elem "p" [] [.text "Content here"]],
          .elem "div" [("id", "root")] []]) :=
    OccursIn.child _ _ _ (by simp) (OccursIn.refl _)
  have h2 : OccursIn (.elem "div" [("id", "root")] []) docC7dup := by
    unfold docC7dup
    exact OccursIn.child _ _ _ (by simp) h1
  exact ⟨⟨by decide, h2, by decide, by decide, by decide⟩, by decide⟩

/-- `<noscript>JavaScript is required</noscript><p>Short</p>` in the
body. -/
def docC8ns : Dom :=
  .elem "html" [] [.elem "head" [] [],
    .elem "body" [] [.elem "noscript" [] [.text "JavaScript is required"],
      .elem "p" [] [.text "Short"]]]

/-- The same noscript wrapped in a cookie-banner container. -/
def docC8cookie : Dom :=
  .elem "html" [] [.elem "head" [] [],
    .elem "body" [] [.elem "div" [("class", "cookie-banner")]
        [.elem "noscript" [] [.text "JavaScript is required"]],
      .elem "p" [] [.text "Short"]]]

/-- An earlier noscript disqualified as a cookie banner, a later
qualifying one. -/
def docC8late : Dom :=
  .elem "html" [] [.elem "head" [] [],
    .elem "body" [] [.elem "div" [("class", "cookie-banner")]
        [.elem "noscript" [] [.text "javascript cookies"]],
      .elem "noscript" [] [.text "Enable JavaScript"],
      .elem "p" [] [.text "Short"]]]

/-- An empty SPA root alongside a qualifying noscript: Stage 1 fires on
the root check first. -/
def docC8root : Dom :=
  .elem "html" [] [.elem "head" [] [],
    .elem "body" [] [.elem "div" [("id", "root")] [],
      .elem "noscript" [] [.text "JavaScript is required"]]]

/-- C8 (amended): whenever some `<noscript>` anywhere in the document
(each is checked independently, so a qualifying one after a disqualified
cookie-banner one still counts) has text containing "javascript"
case-insensitively and no ancestor marked cookie/consent/banner, and the
body text is under the Stage-1 minimum, Stage 1 returns
`shouldFallback = true`; the reason is the Noscript one provided the
empty-SPA-root check did not already fire.  The two spec examples and the
later-qualifying-noscript example behave as stated. -/
theorem C8_noscript_stage1 :
    (∀ (doc : Dom) (info : NoscriptInfo) (extracted : Option Dom) (v raw : Option Bool),
      info ∈ docNoscripts doc →
      strContains (strToLower info.textContent) "javascript" = true →
      isCookieBannerWrapper info.ancestors = false →
      getBodyTextCount doc < STAGE_1_BODY_TEXT_MIN →
      (detectNeedForBrowser doc extracted ⟨v, raw, some .stage1⟩).shouldFallback = true
      ∧ (isEmptyRootDiv doc = false →
          detectNeedForBrowser doc extracted ⟨v, raw, some .stage1⟩
            = ⟨true, some "Noscript with javascript and sparse body"⟩))
    ∧ detectNeedForBrowser docC8ns none ⟨none, none, some .stage1⟩
        = ⟨true, some "Noscript with javascript and sparse body"⟩
    ∧ detectNeedForBrowser docC8cookie none ⟨none, none, some .stage1⟩ = ⟨false, none⟩
    ∧ detectNeedForBrowser docC8late none ⟨none, none, some .stage1⟩
        = ⟨true, some "Noscript with javascript and sparse body"⟩ := by
  refine ⟨?_, by decide, by decide, by decide⟩
  intro doc info extracted v raw hmem hjs hcb hlt
  have hns : hasNoscriptAndEmptyBody doc = true := by
    unfold hasNoscriptAndEmptyBody
    have hne : ¬((docNoscripts doc).isEmpty = true) := by
      intro h
      rw [List.isEmpty_iff.1 h] at hmem
      exact absurd hmem (List.not_mem_nil _)
    rw [if_neg hne, if_pos (List.any_eq_true.2 ⟨info, hmem, by simp [nsQualifies, hjs, hcb]⟩)]
    simpa using hlt
  cases hroot : isEmptyRootDiv doc
  · have hdet : detectNeedForBrowser doc extracted ⟨v, raw, some .stage1⟩
        = ⟨true, some "Noscript with javascript and sparse body"⟩ := by
      simp [detectNeedForBrowser, hroot, hns]
    exact ⟨by rw [hdet], fun _ => hdet⟩
  · have hdet : detectNeedForBrowser doc extracted ⟨v, raw, some .stage1⟩
        = ⟨true, some "Empty SPA root div detected"⟩ := by
      simp [detectNeedForBrowser, hroot]
    exact ⟨by rw [hdet], fun h => by simp [hroot] at h⟩

/-- Witness for `C7_emptyRoot_stage1` at a concrete input. -/
theorem C7_emptyRoot_stage1_witness :
    detectNeedForBrowser docC7empty none ⟨none, none, some .stage1⟩
      = ⟨true, some "Empty SPA root div detected"⟩ :=
  C7_emptyRoot_stage1.1 docC7empty "root" (.elem "div" [("id", "root")] [])
    none none none (by decide) rfl (by decide) (Or.inl (by decide))

/-- Witness for `C8_noscript_stage1` at a concrete input. -/
theorem C8_noscript_stage1_witness :
    (detectNeedForBrowser docC8ns none ⟨none, none, some .stage1⟩).shouldFallback = true :=
  (C8_noscript_stage1.1 docC8ns ⟨"JavaScript is required", [[], []]⟩ none none none
    (by decide) (by decide) (by decide) (by decide)).1

/-- C8 counterexample (claim as stated): `docC8root` satisfies the
noscript premise — sparse body, qualifying noscript with no cookie-banner
ancestor — yet the returned reason is the empty-SPA-root one (not
"Noscript"-flavored), because the empty-root check runs first. -/
theorem C8_claim_counterexample :
    (∃ info ∈ docNoscripts docC8root,
        strContains (strToLower info.textContent) "javascript" = true
        ∧ isCookieBannerWrapper info.ancestors = false)
    ∧ getBodyTextCount docC8root < STAGE_1_BODY_TEXT_MIN
    ∧ detectNeedForBrowser docC8root none ⟨none, none, some .stage1⟩
        = ⟨true, some "Empty SPA root div detected"⟩
    ∧ strContains "Empty SPA root div detected" "Noscript" = false := by
  decide

/-- `<div>Short</div>` as an extracted fragment. -/
def docC9div : Dom := .elem "html" [] [.elem "body" [] [.elem "div" [] [.text "Short"]]]

/-- `<p>Short</p>` as an extracted fragment. -/
def docC9p : Dom := .elem "html" [] [.elem "body" [] [.elem "p" [] [.text "Short"]]]

theorem isContentTooSparse_iff (ex : Dom) :
    isContentTooSparse ex = true
      ↔ (utf16Length (extractedBodyText ex) < STAGE_2_CONTENT_MIN
          ∧ ∀ t ∈ STAGE_2_STRUCTURAL_TAGS, findTagNode t ex = none) := by
  unfold isContentTooSparse
  by_cases hlen : STAGE_2_CONTENT_MIN ≤ utf16Length (extractedBodyText ex)
  · rw [if_pos hlen]
    simp only [Bool.false_eq_true, false_iff]
    intro h
    omega
  · rw [if_neg hlen]
    have hl : utf16Length (extractedBodyText ex) < STAGE_2_CONTENT_MIN := by omega
    simp only [hl, true_and, Bool.not_eq_true', List.any_eq_false]
    constructor
    · intro h t ht
      have h' := h t ht
      cases hft : findTagNode t ex
      · rfl
      · rw [hft] at h'
        simp at h'
    · intro h t ht
      simp [h t ht]

/-- C9: with raw processing not requested, a Stage-2 call on a supplied
extracted fragment reports the "too sparse" fallback exactly when the
fragment's body text is under the Stage-2 minimum and no structural tag
(article, p, pre, li, h1–h6) occurs anywhere in it; a raw request or a
missing fragment skips Stage 2 (the call is total — it never throws —
and returns no-fallback); `<div>Short</div>` triggers it while
`<p>Short</p>` does not, at identical text length. -/
theorem C9_stage2_sparsity :
    (∀ (rawDoc ex : Dom) (v raw : Option Bool), raw ≠ some true →
      (detectNeedForBrowser rawDoc (some ex) ⟨v, raw, some .stage2⟩
          = ⟨true, some "Extracted content is too sparse"⟩
        ↔ (utf16Length (extractedBodyText ex) < STAGE_2_CONTENT_MIN
            ∧ ∀ t ∈ STAGE_2_STRUCTURAL_TAGS, findTagNode t ex = none)))
    ∧ (∀ (rawDoc : Dom) (ex : Option Dom) (v : Option Bool),
        detectNeedForBrowser rawDoc ex ⟨v, some true, some .stage2⟩ = ⟨false, none⟩)
    ∧ (∀ (rawDoc : Dom) (v raw : Option Bool),
        detectNeedForBrowser rawDoc none ⟨v, raw, some .stage2⟩ = ⟨false, none⟩)
    ∧ detectNeedForBrowser docC9div (some docC9div) ⟨none, none, some .stage2⟩
        = ⟨true, some "Extracted content is too sparse"⟩
    ∧ detectNeedForBrowser docC9p (some docC9p) ⟨none, none, some .stage2⟩ = ⟨false, none⟩ := by
  refine ⟨?_, ?_, ?_, by decide, by decide⟩
  · intro rawDoc ex v raw hraw
    have hred : detectNeedForBrowser rawDoc (some ex) ⟨v, raw, some .stage2⟩
        = if isContentTooSparse ex then ⟨true, some "Extracted content is too sparse"⟩
          else ⟨false, none⟩ := by
      simp [detectNeedForBrowser, hraw]
    by_cases hsp : isContentTooSparse ex = true
    · rw [hred, if_pos hsp]
      constructor
      · intro _
        exact (isContentTooSparse_iff ex).1 hsp
      · intro _
        rfl
    · rw [hred, if_neg hsp]
      constructor
      · intro h
        exact absurd h (by simp)
      · intro hc
        exact absurd ((isContentTooSparse_iff ex).2 hc) hsp
  · intro rawDoc ex v
    simp [detectNeedForBrowser]
  · intro rawDoc v raw
    simp [detectNeedForBrowser]

/-- Witness for `C9_stage2_sparsity` at a concrete input. -/
theorem C9_stage2_sparsity_witness :
    detectNeedForBrowser docC9div (some docC9div) ⟨none, none, some .stage2⟩
      = ⟨true, some "Extracted content is too sparse"⟩ :=
  (C9_stage2_sparsity.1 docC9div docC9div none none (by decide)).2
    ⟨by decide, by intro t ht; fin_cases ht <;> rfl⟩

/-- C10: with the stage selector set to `stage1`, the verdict — both the
flag and the reason — is a function of the raw markup alone: the
extracted-content argument (absent, `null`, or any fragment) is never
consulted. -/
theorem C10_stage1_ignores_extracted :
    ∀ (rawDoc : Dom) (e₁ e₂ : Option Dom) (v raw : Option Bool),
      detectNeedForBrowser rawDoc e₁ ⟨v, raw, some .stage1⟩
        = detectNeedForBrowser rawDoc e₂ ⟨v, raw, some .stage1⟩ := by
  intro rawDoc e₁ e₂ v raw
  cases hroot : isEmptyRootDiv rawDoc <;> cases hns : hasNoscriptAndEmptyBody rawDoc <;>
    simp [detectNeedForBrowser, hroot, hns]


/-! ## Fetch orchestrator (`fetcher.ts`: `tryGetFromCache`,
`fetchWithAutoDetect`, `fetchWithMode`, `orchestrateFetch`)

The network, the browser, the extractor and the HTML parser are oracles
carried in a `World`; each embedded function additionally returns the
ordered trace of externally visible events (fetches, detector calls,
extraction, cache writes) it performs. -/

/-- `RenderMode = "auto" | "static" | "headless"`. -/
inductive RenderMode where
  | auto
  | static
  | headless
deriving DecidableEq, Repr

/-- The two concrete strategies a fetch can report. -/
inductive Strategy where
  | static
  | headless
deriving DecidableEq, Repr

/-- The three-valued strategy surfaced by the cache module's read. -/
inductive CachedStrategy where
  | static
  | headless
  | unknown
deriving DecidableEq, Repr

def CachedStrategy.toStrategy : CachedStrategy → Strategy
  | .static => .static
  | .headless => .headless
  | .unknown => .static

structure StaticFetchResult where
  html : String
  finalUrl : String
  contentType : Option String
deriving DecidableEq, Repr

structure RenderFetchResult where
  html : String
  finalUrl : String
deriving DecidableEq, Repr

/-- `FetchResult` of the fetcher. -/
structure FetchResult where
  html : String
  finalUrl : String
  fromCache : Bool
  strategyUsed : Strategy
deriving DecidableEq, Repr

/-- The stored cache record as persisted on disk for the fetcher's cache
module: content plus optional finalUrl and strategy fields (old-format
entries lack them). -/
structure FetchCacheRecord where
  content : String
  finalUrl : Option String
  strategy : Option String
deriving DecidableEq, Repr

/-- An entry as the fetcher's cache module returns it from a read. -/
structure CacheModuleEntry where
  content : String
  finalUrl : String
  strategy : CachedStrategy
deriving DecidableEq, Repr

/-- Modelled from the spec: the strategy normalization at the
deserialization boundary of the fetcher-facing cache module (that module
is absent from the sources; only its test file and its callers are
present).  Per the spec, the separate "unknown" variant is confined to
the cache read: a recorded `"static"`/`"headless"` maps to itself and an
absent or unrecognized strategy surfaces as `unknown` (the
backward-compatibility test pins an absent strategy to `"unknown"`). -/
def normalizeStrategy : Option String → CachedStrategy
  | some "static" => .static
  | some "headless" => .headless
  | _ => .unknown

/-- Modelled from the spec: `readFromCache` of the fetcher-facing cache
module.  `stored` is the located, validated record (`none` for any
failure: missing file, parse error, staleness, url mismatch); a disabled
cache reads as absent; a hit defaults `finalUrl` to the requested url
(as the test pins) and normalizes the strategy. -/
def fetchCacheRead (enabled : Bool) (url : String)
    (stored : Option FetchCacheRecord) : Option CacheModuleEntry :=
  if !enabled then none
  else
    match stored with
    | none => none
    | some r => some ⟨r.content, r.finalUrl.getD url, normalizeStrategy r.strategy⟩

/-- The orchestrator-relevant fetch options: `noCache`, the
`options.cache.enabled` override (spread after `enabled: !noCache`), and
the flags handed to the detector. -/
structure FetchOptions where
  noCache : Bool := false
  cacheEnabled : Option Bool := none
  raw : Option Bool := none
  verbose : Option Bool := none
deriving DecidableEq, Repr

/-- The `enabled` value the cache module sees:
`{ enabled: !options.noCache, ...options.cache }` — a caller-supplied
`cache.enabled` overrides the `!noCache` default. -/
def cacheEnabledEff (o : FetchOptions) : Bool := o.cacheEnabled.getD (!o.noCache)

/-- `tryGetFromCache(url, mode, options)` over the read entry: `noCache`
short-circuits, an `unknown` strategy is a miss ("re-probing"), and a hit
is served when the mode is `auto` or matches the recorded strategy. -/
def tryGetFromCache (url : String) (mode : RenderMode) (opts : FetchOptions)
    (stored : Option FetchCacheRecord) : Option FetchResult :=
  if opts.noCache then none
  else
    match fetchCacheRead (cacheEnabledEff opts) url stored with
    | none => none
    | some c =>
      if c.strategy = CachedStrategy.unknown then none
      else
        let canUse := mode = RenderMode.auto
          ∨ (mode = RenderMode.static ∧ c.strategy = CachedStrategy.static)
          ∨ (mode = RenderMode.headless ∧ c.strategy = CachedStrategy.headless)
        if canUse then
          some ⟨c.content, c.finalUrl, true, c.strategy.toStrategy⟩
        else none

/-- One externally visible step of an orchestrated fetch. -/
inductive FetchEvent where
  | staticFetch
  | renderFetch
  | detectorCall (stage : DetectionStage) (rawHtml : String)
  | extractCall (rawHtml : String)
  | cacheWrite (url content finalUrl : String) (strategy : Strategy)
deriving DecidableEq, Repr

def isRenderEvent : FetchEvent → Bool
  | .renderFetch => true
  | _ => false

def isDetectorEvent : FetchEvent → Bool
  | .detectorCall _ _ => true
  | _ => false

def isWriteEvent : FetchEvent → Bool
  | .cacheWrite _ _ _ _ => true
  | _ => false

/-- The oracles of one orchestrated call: what the static fetch, the
render fetch and the browser-install check would deliver, plus the
extraction collaborator and the HTML parser. -/
structure World where
  cacheRead : Option FetchCacheRecord
  staticFetch : Except String StaticFetchResult
  renderFetch : Except String RenderFetchResult
  browserInstall : Except String Unit
  extract : String → String
  parse : String → Dom

/-- `HTML_CONTENT_TYPE_RE = /text\/html|application\/xhtml\+xml/i`
tested against a content type. -/
def htmlContentTypeTest (s : String) : Bool :=
  strContains (strToLower s) "text/html" || strContains (strToLower s) "application/xhtml+xml"

/-- `staticResult.contentType && !HTML_CONTENT_TYPE_RE.test(...)`: the
non-markup gate requires a *truthy* (present and non-empty) content type
that fails the HTML regex. -/
def contentTypeGate (ct : Option String) : Bool :=
  match ct with
  | some s => !s.isEmpty && !htmlContentTypeTest s
  | none => false

/-- Modelled from the spec: `writeToCache(url, content, finalUrl,
strategy, options)` of the fetcher-facing cache module: when enabled it
serializes exactly one entry at the url's key, overwriting any prior
entry unconditionally; the trace records it as one `cacheWrite` event. -/
def fetchCacheWriteEvents (enabled : Bool) (url content finalUrl : String)
    (strategy : Strategy) : List FetchEvent :=
  if enabled then [.cacheWrite url content finalUrl strategy] else []

/-- `fetchWithAutoDetect`: static probe; non-markup gate; Stage 1 on the
raw markup; on fallback a one-shot render (after the install check);
otherwise extraction, Stage 2 on the extracted fragment, and either a
one-shot render or the static result.  Note that the value returned on
the static path is the *raw* probe html. -/
def fetchWithAutoDetect (w : World) (opts : FetchOptions) :
    Except String (String × String × Strategy) × List FetchEvent :=
  match w.staticFetch with
  | .error e => (.error e, [.staticFetch])
  | .ok sr =>
    if contentTypeGate sr.contentType then
      (.ok (sr.html, sr.finalUrl, .static), [.staticFetch])
    else
      let stage1 := detectNeedForBrowser (w.parse sr.html) none
        ⟨opts.verbose, opts.raw, some .stage1⟩
      let ev1 : List FetchEvent := [.staticFetch, .detectorCall .stage1 sr.html]
      if stage1.shouldFallback then
        match w.browserInstall with
        | .error e => (.error e, ev1)
        | .ok _ =>
          match w.renderFetch with
          | .error e => (.error e, ev1 ++ [.renderFetch])
          | .ok rr => (.ok (rr.html, rr.finalUrl, .headless), ev1 ++ [.renderFetch])
      else
        let extractedHtml := w.extract sr.html
        let stage2 := detectNeedForBrowser (w.parse sr.html) (some (w.parse extractedHtml))
          ⟨opts.verbose, opts.raw, some .stage2⟩
        let ev3 := ev1 ++ [.extractCall sr.html, .detectorCall .stage2 sr.html]
        if stage2.shouldFallback then
          match w.browserInstall with
          | .error e => (.error e, ev3)
          | .ok _ =>
            match w.renderFetch with
            | .error e => (.error e, ev3 ++ [.renderFetch])
            | .ok rr => (.ok (rr.html, rr.finalUrl, .headless), ev3 ++ [.renderFetch])
        else (.ok (sr.html, sr.finalUrl, .static), ev3)

/-- `fetchWithMode`: forced static, forced headless (install check
first), or auto. -/
def fetchWithMode (w : World) (mode : RenderMode) (opts : FetchOptions) :
    Except String (String × String × Strategy) × List FetchEvent :=
  match mode with
  | .static =>
    match w.staticFetch with
    | .error e => (.error e, [.staticFetch])
    | .ok sr => (.ok (sr.html, sr.finalUrl, .static), [.staticFetch])
  | .headless =>
    match w.browserInstall with
    | .error e => (.error e, [])
    | .ok _ =>
      match w.renderFetch with
      | .error e => (.error e, [.renderFetch])
      | .ok rr => (.ok (rr.html, rr.finalUrl, .headless), [.renderFetch])
  | .auto => fetchWithAutoDetect w opts

/-- `orchestrateFetch(url, mode, options)`: a usable cache hit is
returned immediately (tagged `fromCache`, no further events); otherwise
the mode dispatch runs and, unless `noCache`, the final result is written
back through the cache module. -/
def orchestrateFetch (w : World) (url : String) (mode : RenderMode)
    (opts : FetchOptions) : Except String FetchResult × List FetchEvent :=
  match tryGetFromCache url mode opts w.cacheRead with
  | some cached => (.ok cached, [])
  | none =>
    match fetchWithMode w mode opts with
    | (.error e, evs) => (.error e, evs)
    | (.ok (html, finalUrl, strategy), evs) =>
      let wevs :=
        if !opts.noCache then fetchCacheWriteEvents (cacheEnabledEff opts) url html finalUrl strategy
        else []
      (.ok ⟨html, finalUrl, false, strategy⟩, evs ++ wevs)

/-- Every run of `fetchWithAutoDetect` takes one of nine shapes: static
failure; non-markup short-circuit; Stage-1 fallback (install failure,
render failure, or render success); or Stage-1 clear followed by
extraction and Stage 2 (install failure, render failure, render success,
or static final). -/
theorem fetchWithAutoDetect_cases (w : World) (opts : FetchOptions) :
    (∃ e, fetchWithAutoDetect w opts = (.error e, [.staticFetch]))
    ∨ (∃ sr, w.staticFetch = .ok sr ∧ fetchWithAutoDetect w opts
        = (.ok (sr.html, sr.finalUrl, .static), [.staticFetch]))
    ∨ (∃ sr e, w.staticFetch = .ok sr ∧ fetchWithAutoDetect w opts
        = (.error e, [.staticFetch, .detectorCall .stage1 sr.html]))
    ∨ (∃ sr e, w.staticFetch = .ok sr ∧ fetchWithAutoDetect w opts
        = (.error e, [.staticFetch, .detectorCall .stage1 sr.html, .renderFetch]))
    ∨ (∃ sr rr, w.staticFetch = .ok sr ∧ w.renderFetch = .ok rr ∧ fetchWithAutoDetect w opts
        = (.ok (rr.html, rr.finalUrl, .headless),
            [.staticFetch, .detectorCall .stage1 sr.html, .renderFetch]))
    ∨ (∃ sr e, w.staticFetch = .ok sr ∧ fetchWithAutoDetect w opts
        = (.error e, [.staticFetch, .detectorCall .stage1 sr.html, .extractCall sr.html,
            .detectorCall .stage2 sr.html]))
    ∨ (∃ sr e, w.staticFetch = .ok sr ∧ fetchWithAutoDetect w opts
        = (.error e, [.staticFetch, .detectorCall .stage1 sr.html, .extractCall sr.html,
            .detectorCall .stage2 sr.html, .renderFetch]))
    ∨ (∃ sr rr, w.staticFetch = .ok sr ∧ w.renderFetch = .ok rr ∧ fetchWithAutoDetect w opts
        = (.ok (rr.html, rr.finalUrl, .headless),
            [.staticFetch, .detectorCall .stage1 sr.html, .extractCall sr.html,
              .detectorCall .stage2 sr.html, .renderFetch]))
    ∨ (∃ sr, w.staticFetch = .ok sr ∧ fetchWithAutoDetect w opts
        = (.ok (sr.html, sr.finalUrl, .static),
            [.staticFetch, .detectorCall .stage1 sr.html, .extractCall sr.html,
              .detectorCall .stage2 sr.html])) := by
  unfold fetchWithAutoDetect
  rcases hsf : w.staticFetch with e | sr
  · exact Or.inl ⟨e, rfl⟩
  · try dsimp only
    by_cases hg : contentTypeGate sr.contentType = true
    · rw [if_pos hg]
      exact Or.inr (Or.inl ⟨sr, rfl, rfl⟩)
    · rw [if_neg hg]
      try dsimp only
      by_cases hs1 : (detectNeedForBrowser (w.parse sr.html) none
          ⟨opts.verbose, opts.raw, some .stage1⟩).shouldFallback = true
      · rw [if_pos hs1]
        rcases hbi : w.browserInstall with e | u
        · exact Or.inr (Or.inr (Or.inl ⟨sr, e, rfl, rfl⟩))
        · try dsimp only
          rcases hrf : w.renderFetch with e | rr
          · exact Or.inr (Or.inr (Or.inr (Or.inl ⟨sr, e, rfl, rfl⟩)))
          · exact Or.inr (Or.inr (Or.inr (Or.inr (Or.inl ⟨sr, rr, rfl, rfl, rfl⟩))))
      · rw [if_neg hs1]
        try dsimp only
        by_cases hs2 : (detectNeedForBrowser (w.parse sr.html)
            (some (w.parse (w.extract sr.html)))
            ⟨opts.verbose, opts.raw, some .stage2⟩).shouldFallback = true
        · rw [if_pos hs2]
          rcases hbi : w.browserInstall with e | u
          · exact Or.inr (Or.inr (Or.inr (Or.inr (Or.inr (Or.inl ⟨sr, e, rfl, rfl⟩)))))
          · try dsimp only
            rcases hrf : w.renderFetch with e | rr
            · exact Or.inr (Or.inr (Or.inr (Or.inr (Or.inr (Or.inr
                (Or.inl ⟨sr, e, rfl, rfl⟩))))))
            · exact Or.inr (Or.inr (Or.inr (Or.inr (Or.inr (Or.inr (Or.inr
                (Or.inl ⟨sr, rr, rfl, rfl, rfl⟩)))))))
        · rw [if_neg hs2]
          exact Or.inr (Or.inr (Or.inr (Or.inr (Or.inr (Or.inr (Or.inr
            (Or.inr ⟨sr, rfl, rfl⟩)))))))

/-- C3: a cache entry is served (tagged `fromCache = true`) only when the
mode is `auto` or equals the entry's strategy exactly; an entry whose
recorded strategy string is absent or unrecognized is always a miss; a
usable hit makes `orchestrateFetch` return immediately with an empty
event trace (no network activity, no write); and an entry recorded with
the render ("headless") strategy is not reused under forced static mode —
the orchestrator re-fetches statically and writes the entry back with
strategy static at the same url key. -/
theorem C3_cache_mode_gating :
    (∀ (url : String) (mode : RenderMode) (opts : FetchOptions)
        (stored : Option FetchCacheRecord) (r : FetchResult),
      tryGetFromCache url mode opts stored = some r →
      r.fromCache = true
      ∧ (mode = RenderMode.auto
          ∨ (mode = RenderMode.static ∧ r.strategyUsed = Strategy.static)
          ∨ (mode = RenderMode.headless ∧ r.strategyUsed = Strategy.headless)))
    ∧ (∀ (url : String) (mode : RenderMode) (opts : FetchOptions) (rec : FetchCacheRecord),
        rec.strategy ≠ some "static" → rec.strategy ≠ some "headless" →
        tryGetFromCache url mode opts (some rec) = none)
    ∧ (∀ (w : World) (url : String) (mode : RenderMode) (opts : FetchOptions) (r : FetchResult),
        tryGetFromCache url mode opts w.cacheRead = some r →
        orchestrateFetch w url mode opts = (.ok r, []))
    ∧ (∀ (w : World) (url : String) (opts : FetchOptions) (rec : FetchCacheRecord)
        (sr : StaticFetchResult),
        w.cacheRead = some rec → rec.strategy = some "headless" →
        opts.noCache = false → cacheEnabledEff opts = true →
        w.staticFetch = .ok sr →
        orchestrateFetch w url RenderMode.static opts
          = (.ok ⟨sr.html, sr.finalUrl, false, Strategy.static⟩,
              [.staticFetch, .cacheWrite url sr.html sr.finalUrl Strategy.static])) := by
  refine ⟨?_, ?_, ?_, ?_⟩
  · intro url mode opts stored r h
    unfold tryGetFromCache at h
    split_ifs at h
    rcases hcr : fetchCacheRead (cacheEnabledEff opts) url stored with _ | c <;> rw [hcr] at h
    · simp at h
    · dsimp only at h
      split_ifs at h with hunk hcan
      have h' : (⟨c.content, c.finalUrl, true, c.strategy.toStrategy⟩ : FetchResult) = r :=
        Option.some_injective _ h
      subst h'
      refine ⟨rfl, ?_⟩
      rcases hcan with hm | ⟨hm, hs⟩ | ⟨hm, hs⟩
      · exact Or.inl hm
      · exact Or.inr (Or.inl ⟨hm, by simp [hs, CachedStrategy.toStrategy]⟩)
      · exact Or.inr (Or.inr ⟨hm, by simp [hs, CachedStrategy.toStrategy]⟩)
  · intro url mode opts rec hns hnh
    have hunk : normalizeStrategy rec.strategy = CachedStrategy.unknown := by
      unfold normalizeStrategy
      split
      · simp_all
      · simp_all
      · rfl
    unfold tryGetFromCache
    split_ifs with hnc
    · rfl
    · unfold fetchCacheRead
      split_ifs
      · rfl
      · dsimp only
        rw [hunk]
        simp
  · intro w url mode opts r h
    unfold orchestrateFetch
    rw [h]
  · intro w url opts rec sr hcr hstrat hnc hen hsf
    have hmiss : tryGetFromCache url RenderMode.static opts w.cacheRead = none := by
      unfold tryGetFromCache fetchCacheRead
      rw [hcr, if_neg (by simp [hnc]), if_neg (by simp [hen])]
      dsimp only
      rw [if_neg (by simp [hstrat, normalizeStrategy]), if_neg (by simp [hstrat, normalizeStrategy])]
    unfold orchestrateFetch
    rw [hmiss]
    unfold fetchWithMode
    rw [hsf]
    dsimp only
    rw [if_pos (by simp [hnc])]
    unfold fetchCacheWriteEvents
    rw [if_pos hen]
    rfl

/-- Witness for `C3_cache_mode_gating` at concrete inputs. -/
theorem C3_cache_mode_gating_witness :
    tryGetFromCache "u" RenderMode.auto {} (some ⟨"c", none, some "render"⟩) = none
    ∧ orchestrateFetch
        { cacheRead := some ⟨"c", some "f", some "headless"⟩,
          staticFetch := .ok ⟨"h", "fu", some "text/html"⟩,
          renderFetch := .ok ⟨"rh", "rf"⟩, browserInstall := .ok (),
          extract := fun s => s, parse := fun _ => .elem "html" [] [] }
        "u" RenderMode.static {}
      = (.ok ⟨"h", "fu", false, Strategy.static⟩,
          [.staticFetch, .cacheWrite "u" "h" "fu" Strategy.static]) :=
  ⟨C3_cache_mode_gating.2.1 "u" RenderMode.auto {} ⟨"c", none, some "render"⟩
      (by decide) (by decide),
    C3_cache_mode_gating.2.2.2
      { cacheRead := some ⟨"c", some "f", some "headless"⟩,
        staticFetch := .ok ⟨"h", "fu", some "text/html"⟩,
        renderFetch := .ok ⟨"rh", "rf"⟩, browserInstall := .ok (),
        extract := fun s => s, parse := fun _ => .elem "html" [] [] }
      "u" {} ⟨"c", some "f", some "headless"⟩ ⟨"h", "fu", some "text/html"⟩
      rfl rfl rfl rfl rfl⟩

theorem fetchWithMode_no_writes (w : World) (mode : RenderMode) (opts : FetchOptions) :
    (fetchWithMode w mode opts).2.filter isWriteEvent = [] := by
  cases mode
  · show (fetchWithAutoDetect w opts).2.filter isWriteEvent = []
    rcases fetchWithAutoDetect_cases w opts with
      ⟨e, h⟩ | ⟨sr, hs, h⟩ | ⟨sr, e, hs, h⟩ | ⟨sr, e, hs, h⟩ | ⟨sr, rr, hs, hr, h⟩
      | ⟨sr, e, hs, h⟩ | ⟨sr, e, hs, h⟩ | ⟨sr, rr, hs, hr, h⟩ | ⟨sr, hs, h⟩ <;>
      rw [h] <;> simp [isWriteEvent]
  · unfold fetchWithMode
    rcases w.staticFetch with e | sr <;> simp [isWriteEvent]
  · unfold fetchWithMode
    rcases w.browserInstall with e | u
    · simp
    · rcases w.renderFetch with e | rr <;> simp [isWriteEvent]

/-- C4: an orchestrated fetch never performs more than one cache write;
and when caching is effectively enabled (`noCache` unset and no
`cache.enabled = false` override) and the call does not end in a usable
cache hit, a successful call performs exactly one write, whose payload is
the final returned result (so a static probe superseded by a render
fallback is never written). -/
theorem C4_single_final_write :
    (∀ (w : World) (url : String) (mode : RenderMode) (opts : FetchOptions),
      ((orchestrateFetch w url mode opts).2.filter isWriteEvent).length ≤ 1)
    ∧ (∀ (w : World) (url : String) (mode : RenderMode) (opts : FetchOptions) (r : FetchResult),
        opts.noCache = false → cacheEnabledEff opts = true →
        tryGetFromCache url mode opts w.cacheRead = none →
        (orchestrateFetch w url mode opts).1 = .ok r →
        (orchestrateFetch w url mode opts).2.filter isWriteEvent
          = [.cacheWrite url r.html r.finalUrl r.strategyUsed]) := by
  constructor
  · intro w url mode opts
    unfold orchestrateFetch
    rcases tryGetFromCache url mode opts w.cacheRead with _ | cached
    · rcases hfm : fetchWithMode w mode opts with ⟨res, evs⟩
      have hw : evs.filter isWriteEvent = [] := by
        have hnw := fetchWithMode_no_writes w mode opts
        rw [hfm] at hnw
        exact hnw
      dsimp only
      rcases res with e | ⟨html, finalUrl, strategy⟩
      · dsimp only
        rw [hw]
        simp
      · dsimp only
        rw [List.filter_append, hw]
        rw [List.nil_append]
        rcases hb : (!opts.noCache) with _ | _
        · rw [if_neg (by simp [hb])]
          simp
        · rw [if_pos (by simp [hb])]
          unfold fetchCacheWriteEvents
          split_ifs <;> simp [isWriteEvent]
    · simp
  · intro w url mode opts r hnc hen hmiss hok
    unfold orchestrateFetch at hok ⊢
    rw [hmiss] at hok ⊢
    rcases hfm : fetchWithMode w mode opts with ⟨res, evs⟩
    rw [hfm] at hok
    have hw : evs.filter isWriteEvent = [] := by
      have hnw := fetchWithMode_no_writes w mode opts
      rw [hfm] at hnw
      exact hnw
    dsimp only at hok ⊢
    rcases res with e | ⟨html, finalUrl, strategy⟩
    · simp at hok
    · dsimp only at hok ⊢
      have hr : r = ⟨html, finalUrl, false, strategy⟩ := by
        simpa [eq_comm] using hok
      subst hr
      rw [List.filter_append, hw, List.nil_append]
      rw [if_pos (by simp [hnc])]
      unfold fetchCacheWriteEvents
      rw [if_pos hen]
      simp [isWriteEvent]

/-- Witness for `C4_single_final_write` at a concrete input. -/
theorem C4_single_final_write_witness :
    (orchestrateFetch
        { cacheRead := none, staticFetch := .ok ⟨"h", "fu", some "text/html"⟩,
          renderFetch := .ok ⟨"rh", "rf"⟩, browserInstall := .ok (),
          extract := fun s => s, parse := fun _ => .elem "html" [] [] }
        "u" RenderMode.static {}).2.filter isWriteEvent
      = [.cacheWrite "u" "h" "fu" Strategy.static] :=
  C4_single_final_write.2
    { cacheRead := none, staticFetch := .ok ⟨"h", "fu", some "text/html"⟩,
      renderFetch := .ok ⟨"rh", "rf"⟩, browserInstall := .ok (),
      extract := fun s => s, parse := fun _ => .elem "html" [] [] }
    "u" RenderMode.static {} ⟨"h", "fu", false, Strategy.static⟩ rfl rfl rfl rfl

/-- C5 (amended): in an auto-mode fetch whose static probe declares a
*non-empty* content type that does not match the HTML-family pattern, the
detector is never invoked (the trace holds only the static fetch) and
the static result is final with strategy static. -/
theorem C5_nonHtml_content_type :
    ∀ (w : World) (opts : FetchOptions) (sr : StaticFetchResult) (ct : String),
      w.staticFetch = .ok sr → sr.contentType = some ct → ct ≠ "" →
      htmlContentTypeTest ct = false →
      fetchWithAutoDetect w opts
        = (.ok (sr.html, sr.finalUrl, Strategy.static), [.staticFetch]) := by
  intro w opts sr ct hsf hct hne hhtml
  have hgate : contentTypeGate sr.contentType = true := by
    rw [hct]
    unfold contentTypeGate
    have hie : ct.isEmpty = false := by
      rcases h : ct.isEmpty
      · rfl
      · exact absurd ((String.isEmpty_iff ct).1 h) hne
    simp [hhtml, hie]
  unfold fetchWithAutoDetect
  rw [hsf]
  dsimp only
  rw [if_pos hgate]

/-- Witness for `C5_nonHtml_content_type` at a concrete input. -/
theorem C5_nonHtml_content_type_witness :
    fetchWithAutoDetect
        { cacheRead := none, staticFetch := .ok ⟨"{}", "u", some "application/json"⟩,
          renderFetch := .ok ⟨"rh", "rf"⟩, browserInstall := .ok (),
          extract := fun s => s, parse := fun _ => .elem "html" [] [] } {}
      = (.ok ("{}", "u", Strategy.static), [.staticFetch]) :=
  C5_nonHtml_content_type
    { cacheRead := none, staticFetch := .ok ⟨"{}", "u", some "application/json"⟩,
      renderFetch := .ok ⟨"rh", "rf"⟩, browserInstall := .ok (),
      extract := fun s => s, parse := fun _ => .elem "html" [] [] }
    {} ⟨"{}", "u", some "application/json"⟩ "application/json" rfl rfl (by decide) (by decide)

/-- C5 counterexample (claim as stated): an empty declared content type
does not match the HTML-family pattern, yet the gate — which tests the
content type for truthiness first — lets the run fall through to the
detector: the trace contains detector calls. -/
theorem C5_claim_counterexample :
    htmlContentTypeTest "" = false
    ∧ ((fetchWithAutoDetect
          { cacheRead := none, staticFetch := .ok ⟨"x", "u", some ""⟩,
            renderFetch := .ok ⟨"rh", "rf"⟩, browserInstall := .ok (),
            extract := fun _ => "", parse := fun _ => .elem "html" [] [] } {}).2.any
        isDetectorEvent) = true := by
  constructor
  · decide
  · rfl

/-- No detector call occurs after any render fetch in the trace. -/
def noDetectorAfterRender : List FetchEvent → Bool
  | [] => true
  | .renderFetch :: rest => rest.all (fun e => !isDetectorEvent e) && noDetectorAfterRender rest
  | _ :: rest => noDetectorAfterRender rest

/-- C6: in an auto-mode fetch, at most one render fetch ever occurs; no
detector call follows a render fetch; a headless outcome means exactly
one render fetch happened, accepted as final with nothing after it; and
every detector invocation in the run received the *static probe's*
markup — the detector is never invoked on rendered output. -/
theorem C6_render_accepted_as_final (w : World) (opts : FetchOptions) :
    ((fetchWithAutoDetect w opts).2.filter isRenderEvent).length ≤ 1
    ∧ noDetectorAfterRender (fetchWithAutoDetect w opts).2 = true
    ∧ (∀ h f, (fetchWithAutoDetect w opts).1 = .ok (h, f, Strategy.headless) →
        ((fetchWithAutoDetect w opts).2.filter isRenderEvent).length = 1)
    ∧ (∀ st h, FetchEvent.detectorCall st h ∈ (fetchWithAutoDetect w opts).2 →
        ∃ sr, w.staticFetch = .ok sr ∧ h = sr.html) := by
  rcases fetchWithAutoDetect_cases w opts with
    ⟨e, hc⟩ | ⟨sr, hs, hc⟩ | ⟨sr, e, hs, hc⟩ | ⟨sr, e, hs, hc⟩ | ⟨sr, rr, hs, hr, hc⟩
    | ⟨sr, e, hs, hc⟩ | ⟨sr, e, hs, hc⟩ | ⟨sr, rr, hs, hr, hc⟩ | ⟨sr, hs, hc⟩ <;>
    rw [hc] <;>
    refine ⟨by simp [isRenderEvent], by simp [noDetectorAfterRender, isDetectorEvent], ?_, ?_⟩ <;>
    dsimp only
  · intro h f hok
    simp at hok
  · intro st h hmem
    simp [isDetectorEvent] at hmem
  · intro h f hok
    simp at hok
  · intro st h hmem
    simp [isDetectorEvent] at hmem
  · intro h f hok
    simp at hok
  · intro st h hmem
    simp only [List.mem_cons, List.not_mem_nil, or_false] at hmem
    rcases hmem with hmem | hmem
    · exact absurd hmem (by simp)
    · exact ⟨sr, hs, by injection hmem with h1 h2⟩
  · intro h f hok
    simp at hok
  · intro st h hmem
    simp only [List.mem_cons, List.not_mem_nil, or_false] at hmem
    rcases hmem with hmem | hmem | hmem
    · exact absurd hmem (by simp)
    · exact ⟨sr, hs, by injection hmem with h1 h2⟩
    · exact absurd hmem (by simp)
  · intro h f hok
    simp [isRenderEvent]
  · intro st h hmem
    simp only [List.mem_cons, List.not_mem_nil, or_false] at hmem
    rcases hmem with hmem | hmem | hmem
    · exact absurd hmem (by simp)
    · exact ⟨sr, hs, by injection hmem with h1 h2⟩
    · exact absurd hmem (by simp)
  · intro h f hok
    simp at hok
  · intro st h hmem
    simp only [List.mem_cons, List.not_mem_nil, or_false] at hmem
    rcases hmem with hmem | hmem | hmem | hmem
    · exact absurd hmem (by simp)
    · exact ⟨sr, hs, by injection hmem with h1 h2⟩
    · exact absurd hmem (by simp)
    · exact ⟨sr, hs, by injection hmem with h1 h2⟩
  · intro h f hok
    simp at hok
  · intro st h hmem
    simp only [List.mem_cons, List.not_mem_nil, or_false] at hmem
    rcases hmem with hmem | hmem | hmem | hmem | hmem
    · exact absurd hmem (by simp)
    · exact ⟨sr, hs, by injection hmem with h1 h2⟩
    · exact absurd hmem (by simp)
    · exact ⟨sr, hs, by injection hmem with h1 h2⟩
    · exact absurd hmem (by simp)
  · intro h f hok
    simp [isRenderEvent]
  · intro st h hmem
    simp only [List.mem_cons, List.not_mem_nil, or_false] at hmem
    rcases hmem with hmem | hmem | hmem | hmem | hmem
    · exact absurd hmem (by simp)
    · exact ⟨sr, hs, by injection hmem with h1 h2⟩
    · exact absurd hmem (by simp)
    · exact ⟨sr, hs, by injection hmem with h1 h2⟩
    · exact absurd hmem (by simp)
  · intro h f hok
    simp at hok
  · intro st h hmem
    simp only [List.mem_cons, List.not_mem_nil, or_false] at hmem
    rcases hmem with hmem | hmem | hmem | hmem
    · exact absurd hmem (by simp)
    · exact ⟨sr, hs, by injection hmem with h1 h2⟩
    · exact absurd hmem (by simp)
    · exact ⟨sr, hs, by injection hmem with h1 h2⟩

/-- Witness for `C6_render_accepted_as_final` at a concrete input: a
world whose Stage-2 check trips renders exactly once. -/
theorem C6_render_accepted_as_final_witness :
    ((fetchWithAutoDetect
        { cacheRead := none, staticFetch := .ok ⟨"x", "u", some "text/html"⟩,
          renderFetch := .ok ⟨"rh", "rf"⟩, browserInstall := .ok (),
          extract := fun _ => "", parse := fun _ => .elem "html" [] [] } {}).2.filter
      isRenderEvent).length = 1 :=
  (C6_render_accepted_as_final
    { cacheRead := none, staticFetch := .ok ⟨"x", "u", some "text/html"⟩,
      renderFetch := .ok ⟨"rh", "rf"⟩, browserInstall := .ok (),
      extract := fun _ => "", parse := fun _ => .elem "html" [] [] } {}).2.2.1 "rh" "rf" rfl

end IntoMd
